import Mathlib

/-!
Verification of the fund market-monitor pipeline (`market_monitor.py`).

The Python source is shallowly embedded below: a NAV record is a dated
rational value, pandas dataframes become lists of records, NaN sentinels
become `Option`, raised exceptions become `Except`, and the Selenium
pagination loop becomes a fuel-bounded recursion over an abstract
`pages : Nat → List NAVRecord` source.  Each definition's doc comment
names the source lines it embeds.
-/

namespace MarketMonitor

/-- A single net-asset-value observation: one row of the `['date', 'net_value']`
dataframe built at lines 168–172 of `market_monitor.py`. Dates are modelled
as natural numbers (calendar order), values as rationals. -/
structure NAVRecord where
  date : Nat
  value : ℚ
deriving DecidableEq, Repr

/-- The dates of a series, in order. -/
def dates (l : List NAVRecord) : List Nat := l.map (·.date)

/-- `sort_values(by='date', ascending=True)` (lines 209, 216, 259): stable sort
by ascending date. -/
def sortByDate (l : List NAVRecord) : List NAVRecord :=
  l.mergeSort (fun a b => decide (a.date ≤ b.date))

/-- `drop_duplicates(subset=['date'])` (lines 209, 216): keep the first record
of each date, drop later records with a date already seen. -/
def dedupDate : List NAVRecord → List NAVRecord
  | [] => []
  | r :: rs => r :: dedupDate (rs.filter (fun s => decide (s.date ≠ r.date)))
termination_by l => l.length
decreasing_by
  simpa [Nat.lt_succ_iff] using List.length_filter_le (fun s => decide (s.date ≠ r.date)) rs

/-- `df['date'].max()` over a cached series (line 90): the maximum date of the
cached records, or `none` when there is no cached entry. -/
def latestDate : List NAVRecord → Option Nat
  | [] => none
  | r :: rs =>
    some (match latestDate rs with
          | none => r.date
          | some m => max r.date m)

/-- The cache-merge step of `_get_fund_data_from_eastmoney` (lines 175–218):
records strictly newer than the cached maximum date are kept (line 177),
deduplicated by date and sorted (line 209); the result is combined with the
cached series, deduplicated and sorted again (line 216).  When no cached entry
exists the fetched series becomes the entry in full (line 218); when nothing
new was fetched the cached series stands unchanged (lines 227–231). -/
def mergeSeries (cached fetched : List NAVRecord) : List NAVRecord :=
  match latestDate cached with
  | none => sortByDate (dedupDate fetched)
  | some m =>
    let newRecs := fetched.filter (fun r => decide (m < r.date))
    if newRecs.isEmpty then cached
    else sortByDate (dedupDate (cached ++ sortByDate (dedupDate newRecs)))

/-- The four advisory categories written by `generate_report`
(lines 322–326 / 329): 等待回调, 可分批买入, 可加仓, 观察. -/
inductive Advice where
  | waitForPullback
  | buyInBatches
  | accumulate
  | observe
deriving DecidableEq, Repr

/-- The chained conditional expression assigning `advice` at lines 322–326.
A pandas `NaN` indicator is modelled as `none`; `np.isnan(x)` is the `none`
test.  Python's `and` binds tighter than `or`, so rule 1 reads
`(rsi defined ∧ rsi > 70) ∨ (ma defined ∧ ma > 1.2)`. -/
def classify (rsi maRatio : Option ℚ) : Advice :=
  if (rsi.elim false (fun r => decide (r > 70))) ||
     (maRatio.elim false (fun m => decide (m > 1.2))) then
    .waitForPullback
  else if (rsi.elim true (fun r => decide (30 ≤ r ∧ r ≤ 70))) &&
          (maRatio.elim true (fun m => decide (0.8 ≤ m ∧ m ≤ 1.2))) then
    .buyInBatches
  else if rsi.elim false (fun r => decide (r < 30)) then
    .accumulate
  else
    .observe

/-- `rolling(window=w, min_periods=1).mean()` evaluated at position `i`
(lines 263–264, 270): the mean of the last `min (i+1) w` elements of `l`
up to and including position `i`. -/
def rollMeanAt (w : Nat) (l : List ℚ) (i : Nat) : ℚ :=
  let win := (l.take (i + 1)).drop (i + 1 - w)
  win.sum / (win.length : ℚ)

/-- The per-position gains (lines 260–261): `delta = diff(values)` has no
value at position 0 (pandas `NaN`, which `where(delta > 0, 0)` turns into 0),
and `max(delta, 0)` elsewhere. -/
def gains (vs : List ℚ) : List ℚ :=
  0 :: (List.zipWith (fun a b => a - b) vs.tail vs).map (fun d => if 0 < d then d else 0)

/-- The per-position losses (lines 260, 262): `-delta.where(delta < 0, 0)`,
i.e. `max(-delta, 0)`, with 0 at position 0. -/
def losses (vs : List ℚ) : List ℚ :=
  0 :: (List.zipWith (fun a b => a - b) vs.tail vs).map (fun d => if d < 0 then -d else 0)

/-- `avg_gain` (line 263): trailing 14-window mean of gains at position `i`. -/
def avgGainAt (vs : List ℚ) (i : Nat) : ℚ := rollMeanAt 14 (gains vs) i

/-- `avg_loss` (line 264): trailing 14-window mean of losses at position `i`. -/
def avgLossAt (vs : List ℚ) (i : Nat) : ℚ := rollMeanAt 14 (losses vs) i

/-- The RSI at position `i` (lines 266–268): `avg_loss.replace(0, nan)` makes
`rs` — and hence the RSI — undefined (`none`) exactly when `avg_loss` is 0;
otherwise `rs = avg_gain / avg_loss` and `rsi = 100 - 100/(1+rs)`. -/
def rsiAt (vs : List ℚ) (i : Nat) : Option ℚ :=
  if avgLossAt vs i = 0 then none
  else some (100 - 100 / (1 + avgGainAt vs i / avgLossAt vs i))

/-- The whole RSI column, one optional value per position of the series. -/
def rsiList (vs : List ℚ) : List (Option ℚ) :=
  (List.range vs.length).map (rsiAt vs)

/-- The technical-indicator snapshot stored in `self.fund_data[fund_code]`
(lines 278–282). -/
structure Snapshot where
  latestNetValue : ℚ
  rsi : Option ℚ
  maRatio : Option ℚ
deriving DecidableEq, Repr

/-- The indicator computation of `get_fund_data` (lines 259–282): re-sort by
date, take the value column, compute the last RSI (line 274, `NaN` ↦ `none`)
and the MA(min 50 len)-ratio (lines 270, 276: undefined when the moving
average is zero). -/
def computeSnapshot (df : List NAVRecord) : Snapshot :=
  let ds := sortByDate df
  let vs := ds.map (·.value)
  let n := vs.length
  let lv := (ds.getLast?).elim 0 (·.value)
  let ma := rollMeanAt (min 50 n) vs (n - 1)
  { latestNetValue := lv
  , rsi := rsiAt vs (n - 1)
  , maRatio := if ma = 0 then none else some (lv / ma) }

/-- The two failure classes of a fetch. `transient` stands for the retryable
Selenium exceptions (`TimeoutException`, `WebDriverException`, line 114);
`dataFormat` stands for every other raised error, e.g. the
`ValueError("未获取到任何有效数据")` of line 233. -/
inductive FetchError where
  | transient
  | dataFormat
deriving DecidableEq, Repr

/-- The body of the per-fund loop of `get_fund_data` (lines 254–295): a raised
exception is caught and stores `None` (lines 293–295); a fetched series
shorter than 14 records also stores `None` (lines 258, 285–287); otherwise
the indicator snapshot is stored (lines 259–282). -/
def processFund (fetch : String → Except FetchError (List NAVRecord))
    (code : String) : Option Snapshot :=
  match fetch code with
  | .error _ => none
  | .ok df => if 14 ≤ df.length then some (computeSnapshot df) else none

/-- One row of the output table of `generate_report`: either a data row with
indicators and advice (line 327) or the `数据获取失败` placeholder row
(line 329). -/
inductive ReportRow where
  | entry (code : String) (snap : Snapshot) (advice : Advice)
  | failed (code : String)
deriving DecidableEq, Repr

/-- The fund code a report row is about. -/
def rowCode : ReportRow → String
  | .entry c _ _ => c
  | .failed c => c

/-- The per-code row logic of `generate_report` (lines 312–329): a stored
snapshot yields a data row classified by `classify`; a `None` entry yields
the `数据获取失败` row. -/
def reportRow (result : Option Snapshot) (code : String) : ReportRow :=
  match result with
  | some s => .entry code s (classify s.rsi s.maRatio)
  | none => .failed code

/-- The pipeline `get_fund_data` (lines 250–297) followed by
`generate_report` (lines 299–329): one row per fund code, in order. -/
def generateReport (fetch : String → Except FetchError (List NAVRecord))
    (codes : List String) : List ReportRow :=
  codes.map (fun c => reportRow (processFund fetch c) c)

/-- The pagination loop of `_get_fund_data_from_eastmoney` in the no-cache
case (lines 141–197 with `latest_local_date = None`): starting at page 1 with
at most `fuel` pages left (cap `max_pages = 200`, line 143), request page `i`;
an empty page stops the loop (lines 163–165); a page is accumulated
(line 189), and fewer than 20 rows stops the loop (lines 192–195).  Returns
the accumulated pages and the trace of requested page indices. -/
def crawlPagesGo (pages : Nat → List NAVRecord) (i : Nat) :
    Nat → List (List NAVRecord) × List Nat
  | 0 => ([], [])
  | fuel + 1 =>
    let df := pages i
    if df.isEmpty then ([], [i])
    else if df.length < 20 then ([df], [i])
    else
      let rest := crawlPagesGo pages (i + 1) fuel
      (df :: rest.1, i :: rest.2)

/-- The full pagination loop: `page_index` starts at 1, `max_pages = 200`
(lines 142–143). -/
def crawlPages (pages : Nat → List NAVRecord) : List (List NAVRecord) × List Nat :=
  crawlPagesGo pages 1 200

/-- The pagination loop when a cached maximum date `m` exists
(lines 147–197, `latest_local_date` branch): each page is filtered to records
strictly newer than `m` (line 177) and accumulated only when some survive
(lines 178–181); an empty filtered page on a full 20-row page stops the loop
(lines 183–186), as does a page of fewer than 20 rows (lines 192–195), an
empty page (lines 163–165), or the page cap. -/
def crawlCacheGo (m : Nat) (pages : Nat → List NAVRecord) (i : Nat) :
    Nat → List (List NAVRecord)
  | 0 => []
  | fuel + 1 =>
    let df := pages i
    if df.isEmpty then []
    else
      let newDf := df.filter (fun r => decide (m < r.date))
      if newDf.isEmpty then
        if df.length = 20 then []
        else if df.length < 20 then []
        else crawlCacheGo m pages (i + 1) fuel
      else
        if df.length < 20 then [newDf]
        else newDf :: crawlCacheGo m pages (i + 1) fuel

/-- `tail(100)` (lines 223, 230): the most recent 100 records. -/
def tail100 (l : List NAVRecord) : List NAVRecord := l.drop (l.length - 100)

/-- The whole of `_get_fund_data_from_eastmoney` after the crawl
(lines 141–233): crawl (with or without a cached frontier), then either
combine cached and new data (lines 207–226), fall back to the cached series
when nothing new was fetched (lines 228–231), or fail with
`ValueError` — modelled as `none` — when there is no data at all (line 233). -/
def getFundDataFromEastmoney (cached : List NAVRecord)
    (pages : Nat → List NAVRecord) : Option (List NAVRecord) :=
  let allData :=
    match latestDate cached with
    | none => (crawlPages pages).1
    | some m => crawlCacheGo m pages 1 200
  if allData.isEmpty then
    if cached.isEmpty then none
    else some (tail100 cached)
  else
    let newFull := sortByDate (dedupDate allData.flatten)
    let combined :=
      if cached.isEmpty then newFull
      else sortByDate (dedupDate (cached ++ newFull))
    some (tail100 combined)

/-- The tenacity retry wrapper (lines 111–116):
`stop_after_attempt(3)`, `wait_fixed(5)`, retry only on the transient
Selenium exceptions.  `retryGo op attempt retriesLeft` runs `op` at the given
attempt number; a transient error retries after a fixed 5-unit delay while
retries remain, any other error propagates at once.  Returns the final
outcome, the number of the last attempt made, and the list of inter-attempt
delays. -/
def retryGo {α : Type} (op : Nat → Except FetchError α) (attempt : Nat) :
    Nat → Except FetchError α × Nat × List Nat
  | 0 =>
    (op attempt, attempt, [])
  | retriesLeft + 1 =>
    match op attempt with
    | .ok a => (.ok a, attempt, [])
    | .error .dataFormat => (.error .dataFormat, attempt, [])
    | .error .transient =>
      let out := retryGo op (attempt + 1) retriesLeft
      (out.1, out.2.1, 5 :: out.2.2)

/-- The retry policy as configured at lines 111–116: first attempt is
attempt 1, at most 2 retries after it (3 attempts in total). -/
def retryCall {α : Type} (op : Nat → Except FetchError α) :
    Except FetchError α × Nat × List Nat :=
  retryGo op 1 2

/-- One regex match of `_parse_report` (lines 58–64): `findall` on the
two-group pattern returns a pair of groups, of which the non-empty one is the
code. -/
def pickCode (m : String × String) : String :=
  if m.1 ≠ "" then m.1 else m.2

/-- The codes extracted from the matches (lines 61–65), before
deduplication. -/
def extractedCodes (ms : List (String × String)) : List String :=
  ms.map pickCode

/-- The tail of `_parse_report` (lines 61–69): collect the extracted codes
into a set, sort (`sorted(list(extracted_codes))`, lexicographic on strings),
and keep the first 10 (`sorted_codes[:10]`). -/
def selectFundCodes (ms : List (String × String)) : List String :=
  ((extractedCodes ms).toFinset.sort (fun a b => a ≤ b)).take 10

/-! ### Claim theorems: the advisory classifier -/

/-- C3: the classifier applies its rules in strict precedence with the first
matching rule winning: whenever `rsi` is defined with `rsi > 70`, or
`ma_ratio` is defined with `ma_ratio > 1.2`, the category is
`wait_for_pullback`, even when rule 2 would also match. -/
theorem classify_rule_one_precedence (rsi maRatio : Option ℚ)
    (h : (∃ r, rsi = some r ∧ 70 < r) ∨ (∃ m, maRatio = some m ∧ (1.2 : ℚ) < m)) :
    classify rsi maRatio = Advice.waitForPullback := by
  rcases h with ⟨r, hr, h70⟩ | ⟨m, hm, h12⟩
  · subst hr
    simp [classify, h70]
  · subst hm
    simp [classify, h12]

/-- Witness for C3: `rsi = 75` with `ma_ratio` undefined is classified
`wait_for_pullback` (not `buy_in_batches`). -/
theorem classify_rule_one_precedence_witness :
    classify (some 75) none = Advice.waitForPullback :=
  classify_rule_one_precedence (some 75) none (Or.inl ⟨75, rfl, by norm_num⟩)

/-- Counterexample to C4 as stated: with both `rsi` and `ma_ratio` undefined,
the chained conditional of lines 322–326 does NOT return `observe`: both
halves of rule 2's condition are satisfied by `np.isnan`, so it returns
`buy_in_batches`. -/
theorem classify_both_undefined_not_observe :
    classify none none ≠ Advice.observe := by decide

/-- C4 (amended): when both `rsi` and `ma_ratio` are undefined, the
classifier returns `buy_in_batches` (rule 2 matches: each of its conjuncts
is satisfied by the undefined value). -/
theorem classify_both_undefined :
    classify none none = Advice.buyInBatches := by decide

/-! ### Claim theorems: report parsing (C10) -/

/-- C10: the fund list is the set of distinct extracted codes, sorted in
ascending lexicographic (string) order, truncated to the first 10: the
retained list has no duplicates, at most 10 entries, is sorted, contains only
extracted codes, and every extracted code that is dropped is strictly greater
than every retained code. -/
theorem parse_report_code_selection (ms : List (String × String)) :
    (selectFundCodes ms).Nodup ∧
    (selectFundCodes ms).length ≤ 10 ∧
    (selectFundCodes ms).Sorted (· ≤ ·) ∧
    (∀ c, c ∈ selectFundCodes ms → c ∈ extractedCodes ms) ∧
    (∀ c, c ∈ extractedCodes ms → c ∉ selectFundCodes ms →
      ∀ c2 ∈ selectFundCodes ms, c2 < c) := by
  classical
  set L := (extractedCodes ms).toFinset.sort (fun a b => a ≤ b) with hL
  have hnodup : L.Nodup := Finset.sort_nodup _ _
  have hsorted : L.Sorted (fun a b => a ≤ b) := Finset.sort_sorted _ _
  have hlt : L.Sorted (fun a b => a < b) := Finset.sort_sorted_lt _
  have hmemL : ∀ c, c ∈ L ↔ c ∈ extractedCodes ms := by
    intro c
    rw [hL, Finset.mem_sort, List.mem_toFinset]
  refine ⟨?_, ?_, ?_, ?_, ?_⟩
  · exact List.Sublist.nodup (List.take_sublist 10 L) hnodup
  · simp [selectFundCodes, hL]
  · exact List.Pairwise.sublist (List.take_sublist 10 L) hsorted
  · intro c hc
    exact (hmemL c).mp (List.mem_of_mem_take hc)
  · intro c hc hnc c2 hc2
    have hcL : c ∈ L := (hmemL c).mpr hc
    have hcdrop : c ∈ L.drop 10 := by
      rcases (List.mem_append.mp (by rw [List.take_append_drop 10 L]; exact hcL)) with h | h
      · exact absurd h hnc
      · exact h
    have hsplit := (List.pairwise_append.mp
      (by rw [List.take_append_drop 10 L]; exact hlt)).2.2
    exact hsplit c2 hc2 c hcdrop

/-- Witness for C10: on the matches `[("007509",""), ("","001407"),
("007509","")]` every retained code is an extracted code. -/
theorem parse_report_code_selection_witness :
    "001407" ∈ selectFundCodes [("007509", ""), ("", "001407"), ("007509", "")] →
      "001407" ∈ extractedCodes [("007509", ""), ("", "001407"), ("007509", "")] :=
  (parse_report_code_selection
    [("007509", ""), ("", "001407"), ("007509", "")]).2.2.2.1 "001407"

/-! ### Claim theorems: the retry policy (C6) -/

/-- C6: the retry wrapper makes at most 3 attempts; a transient error on
attempts 1 and 2 followed by success on attempt 3 yields that success after
two fixed 5-unit delays; a data-format error on attempt 1 propagates at once
(the last attempt made is attempt 1, with no delay); an immediate success
makes exactly one attempt. -/
theorem retry_policy_behavior {α : Type} (op : Nat → Except FetchError α) (v : α) :
    (retryCall op).2.1 ≤ 3 ∧
    (op 1 = .error .transient → op 2 = .error .transient → op 3 = .ok v →
      retryCall op = (.ok v, 3, [5, 5])) ∧
    (op 1 = .error .dataFormat →
      retryCall op = (.error .dataFormat, 1, [])) ∧
    (op 1 = .ok v → retryCall op = (.ok v, 1, [])) := by
  refine ⟨?_, ?_, ?_, ?_⟩
  · rcases h1 : op 1 with e | a
    · cases e
      · rcases h2 : op 2 with e2 | a2
        · cases e2
          · simp [retryCall, retryGo, h1, h2]
          · simp [retryCall, retryGo, h1, h2]
        · simp [retryCall, retryGo, h1, h2]
      · simp [retryCall, retryGo, h1]
    · simp [retryCall, retryGo, h1]
  · intro h1 h2 h3
    simp [retryCall, retryGo, h1, h2, h3]
  · intro h1
    simp [retryCall, retryGo, h1]
  · intro h1
    simp [retryCall, retryGo, h1]

/-- A fetch operation that fails transiently on the first two attempts and
succeeds on the third. -/
def flakyOp : Nat → Except FetchError Nat :=
  fun a => if a < 3 then .error .transient else .ok a

/-- Witness for C6: `flakyOp` retried yields success on attempt 3 after two
5-unit delays. -/
theorem retry_policy_behavior_witness :
    retryCall flakyOp = (.ok 3, 3, [5, 5]) :=
  (retry_policy_behavior flakyOp 3).2.1 rfl rfl rfl

/-! ### Claim theorems: pagination (C5) -/

/-- One unfolding step of the pagination loop. -/
theorem crawlPagesGo_succ (pages : Nat → List NAVRecord) (i fuel : Nat) :
    crawlPagesGo pages i (fuel + 1) =
      if (pages i).isEmpty then ([], [i])
      else if (pages i).length < 20 then ([pages i], [i])
      else ((pages i) :: (crawlPagesGo pages (i + 1) fuel).1,
            i :: (crawlPagesGo pages (i + 1) fuel).2) := rfl

/-- The trace of requested pages never exceeds the remaining fuel. -/
theorem crawlPagesGo_trace_length_le (pages : Nat → List NAVRecord) :
    ∀ fuel i, (crawlPagesGo pages i fuel).2.length ≤ fuel := by
  intro fuel
  induction fuel with
  | zero => intro i; simp [crawlPagesGo]
  | succ n ih =>
    intro i
    rw [crawlPagesGo_succ]
    split
    · simp
    · split
      · simp
      · simpa using Nat.succ_le_succ (ih (i + 1))

/-- C5: a paginated fetch receiving pages of row counts 20, 20, 15 stops
after the third page — the trace of requested page indices is exactly
`[1, 2, 3]`, so no fourth page is requested and no page is re-fetched — and
the accumulated data is exactly the three pages; in general the loop
requests at most 200 pages (the page-count cap). -/
theorem pagination_terminates_on_short_page :
    (∀ pages : Nat → List NAVRecord,
       (pages 1).length = 20 → (pages 2).length = 20 → (pages 3).length = 15 →
       crawlPages pages = ([pages 1, pages 2, pages 3], [1, 2, 3])) ∧
    (∀ pages : Nat → List NAVRecord, (crawlPages pages).2.length ≤ 200) := by
  constructor
  · intro pages h1 h2 h3
    have e1 : (pages 1).isEmpty = false := by
      rw [List.isEmpty_eq_false_iff_exists_mem]
      rcases List.exists_mem_of_length_pos (l := pages 1) (by omega) with ⟨x, hx⟩
      exact ⟨x, hx⟩
    have e2 : (pages 2).isEmpty = false := by
      rw [List.isEmpty_eq_false_iff_exists_mem]
      rcases List.exists_mem_of_length_pos (l := pages 2) (by omega) with ⟨x, hx⟩
      exact ⟨x, hx⟩
    have e3 : (pages 3).isEmpty = false := by
      rw [List.isEmpty_eq_false_iff_exists_mem]
      rcases List.exists_mem_of_length_pos (l := pages 3) (by omega) with ⟨x, hx⟩
      exact ⟨x, hx⟩
    have s3 : crawlPagesGo pages 3 198 = ([pages 3], [3]) := by
      rw [show (198 : Nat) = 197 + 1 from rfl, crawlPagesGo_succ, e3, h3]
      norm_num
    have s2 : crawlPagesGo pages 2 199 = ([pages 2, pages 3], [2, 3]) := by
      rw [show (199 : Nat) = 198 + 1 from rfl, crawlPagesGo_succ, e2, h2, s3]
      norm_num
    show crawlPagesGo pages 1 200 = ([pages 1, pages 2, pages 3], [1, 2, 3])
    rw [show (200 : Nat) = 199 + 1 from rfl, crawlPagesGo_succ, e1, h1, s2]
    norm_num
  · intro pages
    exact crawlPagesGo_trace_length_le pages 200 1

/-- A concrete paginated source serving pages of 20, 20 and 15 rows. -/
def threePages : Nat → List NAVRecord :=
  fun i =>
    if i = 1 then (List.range 20).map (fun k => ⟨k, 1⟩)
    else if i = 2 then (List.range 20).map (fun k => ⟨20 + k, 1⟩)
    else if i = 3 then (List.range 15).map (fun k => ⟨40 + k, 1⟩)
    else []

/-- Witness for C5: on `threePages` the crawl accumulates exactly the three
pages and requests exactly pages 1, 2, 3. -/
theorem pagination_terminates_on_short_page_witness :
    crawlPages threePages =
      ([threePages 1, threePages 2, threePages 3], [1, 2, 3]) :=
  pagination_terminates_on_short_page.1 threePages rfl rfl rfl

/-! ### Claim theorems: pipeline failure isolation (C7) and insufficient
data (C8) -/

/-- The code of a generated row is the fund code it was generated for. -/
theorem rowCode_reportRow (r : Option Snapshot) (c : String) :
    rowCode (reportRow r c) = c := by
  cases r <;> rfl

/-- C7: the report has exactly one row per input fund code, in input order,
and a code whose fetch fails appears as the explicit `数据获取失败` row
rather than being dropped — so one instrument's failure never aborts the
batch. -/
theorem pipeline_one_row_per_code
    (fetch : String → Except FetchError (List NAVRecord)) (codes : List String) :
    (generateReport fetch codes).map rowCode = codes ∧
    (generateReport fetch codes).length = codes.length ∧
    (∀ c e, c ∈ codes → fetch c = .error e →
      ReportRow.failed c ∈ generateReport fetch codes) := by
  refine ⟨?_, ?_, ?_⟩
  · simp [generateReport, List.map_map, Function.comp_def, rowCode_reportRow]
  · simp [generateReport]
  · intro c e hc hf
    have hrow : reportRow (processFund fetch c) c = ReportRow.failed c := by
      simp [processFund, hf, reportRow]
    have hmem := List.mem_map_of_mem (fun c => reportRow (processFund fetch c) c) hc
    simp only at hmem
    rw [hrow] at hmem
    exact hmem

/-- Witness for C7: with a fetch that always fails transiently, the single
code `007509` still gets its failure row. -/
theorem pipeline_one_row_per_code_witness :
    ReportRow.failed "007509" ∈
      generateReport (fun _ => .error .transient) ["007509"] :=
  (pipeline_one_row_per_code (fun _ => .error .transient) ["007509"]).2.2
    "007509" .transient (List.mem_singleton.mpr rfl) rfl

/-- A 13-record series: one record short of the indicator minimum. -/
def series13 : List NAVRecord := (List.range 13).map (fun i => ⟨i, 1⟩)

/-- Counterexample to C8 as stated: a successfully fetched series of 13
records is reported with the very same `数据获取失败` ("data retrieval
failed") row that a failed fetch produces — the code does not give
insufficient data a distinct "insufficient data" outcome. -/
theorem insufficient_data_same_row_as_failure :
    processFund (fun _ => .ok series13) "000001" = none ∧
    generateReport (fun _ => .ok series13) ["000001"] =
      [ReportRow.failed "000001"] ∧
    generateReport (fun _ => .error .transient) ["000001"] =
      [ReportRow.failed "000001"] := by
  refine ⟨rfl, rfl, rfl⟩

/-- C8 (amended): a fetched series shorter than 14 records is not an error —
the fund's stored result is `None` and its report row is the same
`数据获取失败` marker row used for fetch failures, with indicators
omitted. -/
theorem insufficient_data_reported_as_failed_row
    (fetch : String → Except FetchError (List NAVRecord)) (c : String)
    (df : List NAVRecord) (hf : fetch c = .ok df) (hlen : df.length < 14) :
    processFund fetch c = none ∧
    generateReport fetch [c] = [ReportRow.failed c] := by
  have hnone : processFund fetch c = none := by
    simp [processFund, hf, Nat.not_le.mpr hlen]
  exact ⟨hnone, by simp [generateReport, reportRow, hnone]⟩

/-- Witness for C8 (amended): the 13-record series yields `None` and the
failure-marker row. -/
theorem insufficient_data_reported_as_failed_row_witness :
    processFund (fun _ => .ok series13) "000001" = none ∧
    generateReport (fun _ => .ok series13) ["000001"] =
      [ReportRow.failed "000001"] :=
  insufficient_data_reported_as_failed_row
    (fun _ => .ok series13) "000001" series13 rfl (by decide)

/-! ### Claim theorems: delta fetch falls back to the cache (C9) -/

/-- One unfolding step of the cached-frontier pagination loop. -/
theorem crawlCacheGo_succ (m : Nat) (pages : Nat → List NAVRecord) (i fuel : Nat) :
    crawlCacheGo m pages i (fuel + 1) =
      if (pages i).isEmpty then []
      else
        if ((pages i).filter (fun r => decide (m < r.date))).isEmpty then
          if (pages i).length = 20 then []
          else if (pages i).length < 20 then []
          else crawlCacheGo m pages (i + 1) fuel
        else
          if (pages i).length < 20 then
            [(pages i).filter (fun r => decide (m < r.date))]
          else
            (pages i).filter (fun r => decide (m < r.date)) ::
              crawlCacheGo m pages (i + 1) fuel := rfl

/-- When every record on every page is no newer than the cached maximum
date, the cached-frontier crawl accumulates nothing. -/
theorem crawlCacheGo_eq_nil (m : Nat) (pages : Nat → List NAVRecord)
    (hp : ∀ i, ∀ r ∈ pages i, r.date ≤ m) :
    ∀ fuel i, crawlCacheGo m pages i fuel = [] := by
  intro fuel
  induction fuel with
  | zero => intro i; rfl
  | succ n ih =>
    intro i
    have hnew : (pages i).filter (fun r => decide (m < r.date)) = [] :=
      List.filter_eq_nil_iff.mpr (fun r hr => by
        simpa using Nat.not_lt.mpr (hp i r hr))
    rw [crawlCacheGo_succ, hnew]
    by_cases hpe : (pages i).isEmpty
    · simp [hpe]
    · simp [hpe, ih]

/-- C9: when a cache entry exists and fetching yields zero records newer
than its maximum date, the fetch succeeds and returns the cached series
restricted to the most recent 100 records. -/
theorem fetch_falls_back_to_cache
    (cached : List NAVRecord) (m : Nat) (pages : Nat → List NAVRecord)
    (hm : latestDate cached = some m)
    (hp : ∀ i, ∀ r ∈ pages i, r.date ≤ m) :
    getFundDataFromEastmoney cached pages = some (tail100 cached) := by
  have hnil : crawlCacheGo m pages 1 200 = [] := crawlCacheGo_eq_nil m pages hp 200 1
  have hne : cached ≠ [] := by
    intro h
    rw [h] at hm
    exact Option.noConfusion hm
  simp [getFundDataFromEastmoney, hm, hnil, List.isEmpty_iff, hne]

/-- Witness for C9: a cached 13-record series with an all-empty remote
source is returned unchanged (it is shorter than 100 records). -/
theorem fetch_falls_back_to_cache_witness :
    getFundDataFromEastmoney series13 (fun _ => []) = some (tail100 series13) :=
  fetch_falls_back_to_cache series13 12 (fun _ => []) rfl
    (fun _ r hr => absurd hr (List.not_mem_nil r))

/-! ### Claim theorems: RSI bounds (C2) -/

/-- Every per-position gain is non-negative. -/
theorem gains_nonneg (vs : List ℚ) : ∀ x ∈ gains vs, 0 ≤ x := by
  intro x hx
  simp only [gains, List.mem_cons, List.mem_map] at hx
  rcases hx with rfl | ⟨d, _, rfl⟩
  · exact le_refl 0
  · split
    · linarith
    · exact le_refl 0

/-- Every per-position loss is non-negative. -/
theorem losses_nonneg (vs : List ℚ) : ∀ x ∈ losses vs, 0 ≤ x := by
  intro x hx
  simp only [losses, List.mem_cons, List.mem_map] at hx
  rcases hx with rfl | ⟨d, _, rfl⟩
  · exact le_refl 0
  · split
    · linarith
    · exact le_refl 0

/-- A trailing mean of a list of non-negative values is non-negative. -/
theorem rollMeanAt_nonneg (w : Nat) (l : List ℚ) (i : Nat)
    (h : ∀ x ∈ l, 0 ≤ x) : 0 ≤ rollMeanAt w l i := by
  unfold rollMeanAt
  apply div_nonneg
  · exact List.sum_nonneg
      (fun x hx => h x (List.mem_of_mem_take (List.mem_of_mem_drop hx)))
  · exact Nat.cast_nonneg _

/-- The RSI at a position is undefined exactly when the trailing loss
average there is zero (the `replace(0, nan)` of line 267). -/
theorem rsiAt_none_iff (vs : List ℚ) (i : Nat) :
    rsiAt vs i = none ↔ avgLossAt vs i = 0 := by
  constructor
  · intro h
    by_contra hz
    simp [rsiAt, hz] at h
  · intro h
    simp [rsiAt, h]

/-- Every defined RSI value lies within [0, 100]. -/
theorem rsiAt_cases (vs : List ℚ) (i : Nat) :
    rsiAt vs i = none ∨ ∃ q, rsiAt vs i = some q ∧ 0 ≤ q ∧ q ≤ 100 := by
  by_cases hz : avgLossAt vs i = 0
  · left
    simp [rsiAt, hz]
  · right
    have hlpos : 0 < avgLossAt vs i :=
      lt_of_le_of_ne (rollMeanAt_nonneg 14 (losses vs) i (losses_nonneg vs))
        (Ne.symm hz)
    have hg : 0 ≤ avgGainAt vs i :=
      rollMeanAt_nonneg 14 (gains vs) i (gains_nonneg vs)
    have hrs : 0 ≤ avgGainAt vs i / avgLossAt vs i := div_nonneg hg hlpos.le
    refine ⟨100 - 100 / (1 + avgGainAt vs i / avgLossAt vs i),
      by simp [rsiAt, hz], ?_, ?_⟩
    · have hd100 : 100 / (1 + avgGainAt vs i / avgLossAt vs i) ≤ 100 :=
        div_le_self (by norm_num) (by linarith)
      linarith
    · have hd0 : 0 ≤ 100 / (1 + avgGainAt vs i / avgLossAt vs i) :=
        div_nonneg (by norm_num) (by linarith)
      linarith

/-- C2: on a series of at least 14 records with strictly increasing dates,
every RSI value is either undefined or lies within [0, 100], and the RSI at
a position is undefined exactly when the trailing average of losses at that
position is zero. -/
theorem rsi_bounded_and_undefined_iff_zero_loss (s : List NAVRecord)
    (_h14 : 14 ≤ s.length)
    (_hdates : (dates s).Pairwise (fun a b => a < b)) :
    (∀ x ∈ rsiList (s.map (·.value)),
        x = none ∨ ∃ q, x = some q ∧ 0 ≤ q ∧ q ≤ 100) ∧
    (∀ i, rsiAt (s.map (·.value)) i = none ↔
        avgLossAt (s.map (·.value)) i = 0) := by
  constructor
  · intro x hx
    rcases List.mem_map.mp hx with ⟨i, _, rfl⟩
    exact rsiAt_cases (s.map (·.value)) i
  · intro i
    exact rsiAt_none_iff (s.map (·.value)) i

/-- A concrete 14-record series whose values alternate between 2 and 1. -/
def mix14 : List NAVRecord :=
  (List.range 14).map (fun i => ⟨i, if i % 2 = 0 then 2 else 1⟩)

/-- Witness for C2: the alternating 14-record series satisfies both
conjuncts. -/
theorem rsi_bounded_and_undefined_iff_zero_loss_witness :
    (∀ x ∈ rsiList (mix14.map (·.value)),
        x = none ∨ ∃ q, x = some q ∧ 0 ≤ q ∧ q ≤ 100) ∧
    (∀ i, rsiAt (mix14.map (·.value)) i = none ↔
        avgLossAt (mix14.map (·.value)) i = 0) :=
  rsi_bounded_and_undefined_iff_zero_loss mix14 (by decide) (by decide)

/-! ### Claim theorems: cache merge idempotence (C1) -/

/-- Sorting by date permutes the series. -/
theorem sortByDate_perm (l : List NAVRecord) : (sortByDate l).Perm l :=
  List.mergeSort_perm l _

/-- Membership of a date in a series is preserved by sorting. -/
theorem mem_dates_sortByDate {d : Nat} {l : List NAVRecord} :
    d ∈ dates (sortByDate l) ↔ d ∈ dates l :=
  ((sortByDate_perm l).map (·.date)).mem_iff

/-- Sorting a series yields the empty series only for the empty series. -/
theorem sortByDate_eq_nil_iff {l : List NAVRecord} :
    sortByDate l = [] ↔ l = [] := by
  constructor
  · intro h
    have hp := sortByDate_perm l
    rw [h] at hp
    exact (hp.symm).eq_nil
  · intro h
    rw [h]
    simp [sortByDate]

/-- Date deduplication preserves the set of dates. -/
theorem mem_dates_dedupDate (d : Nat) :
    ∀ l : List NAVRecord, d ∈ dates (dedupDate l) ↔ d ∈ dates l := by
  intro l
  induction l using dedupDate.induct with
  | case1 => simp [dedupDate]
  | case2 r rs ih =>
    rw [dedupDate]
    simp only [dates, List.map_cons, List.mem_cons]
    simp only [dates] at ih
    rw [ih]
    by_cases hd : d = r.date
    · simp [hd]
    · simp only [hd, false_or]
      constructor
      · intro hmem
        rcases List.mem_map.mp hmem with ⟨s, hs, rfl⟩
        exact List.mem_map_of_mem _ (List.mem_of_mem_filter hs)
      · intro hmem
        rcases List.mem_map.mp hmem with ⟨s, hs, rfl⟩
        refine List.mem_map_of_mem _ (List.mem_filter.mpr ⟨hs, ?_⟩)
        simpa using hd

/-- Date deduplication leaves no duplicate dates. -/
theorem nodup_dates_dedupDate :
    ∀ l : List NAVRecord, (dates (dedupDate l)).Nodup := by
  intro l
  induction l using dedupDate.induct with
  | case1 => simp [dedupDate, dates]
  | case2 r rs ih =>
    rw [dedupDate]
    simp only [dates, List.map_cons, List.nodup_cons]
    refine ⟨?_, ih⟩
    intro hmem
    have hmem2 : r.date ∈ dates (rs.filter (fun s => decide (s.date ≠ r.date))) :=
      (mem_dates_dedupDate _ _).mp hmem
    rcases List.mem_map.mp hmem2 with ⟨s, hs, hsd⟩
    have hne := (List.mem_filter.mp hs).2
    simp only [decide_eq_true_eq] at hne
    exact hne hsd

/-- Deduplicating a non-empty series yields a non-empty series. -/
theorem dedupDate_ne_nil {l : List NAVRecord} (h : l ≠ []) :
    dedupDate l ≠ [] := by
  cases l with
  | nil => exact absurd rfl h
  | cons r rs => simp [dedupDate]

/-- The cached maximum date is `none` exactly for the empty series. -/
theorem latestDate_eq_none_iff {l : List NAVRecord} :
    latestDate l = none ↔ l = [] := by
  cases l <;> simp [latestDate]

/-- Every record's date is bounded by the series maximum date. -/
theorem latestDate_le (l : List NAVRecord) :
    ∀ m, latestDate l = some m → ∀ r ∈ l, r.date ≤ m := by
  induction l with
  | nil =>
    intro m hm
    exact absurd hm (by simp [latestDate])
  | cons a rs ih =>
    intro m hm r hr
    rcases List.mem_cons.mp hr with rfl | hr2
    · cases hrs : latestDate rs with
      | none =>
        simp only [latestDate, hrs, Option.some.injEq] at hm
        omega
      | some k =>
        simp only [latestDate, hrs, Option.some.injEq] at hm
        omega
    · have hne : rs ≠ [] := List.ne_nil_of_mem hr2
      cases hrs : latestDate rs with
      | none => exact absurd (latestDate_eq_none_iff.mp hrs) hne
      | some k =>
        simp only [latestDate, hrs, Option.some.injEq] at hm
        have hk := ih k hrs r hr2
        omega

/-- The series maximum date is the date of some record. -/
theorem latestDate_mem (l : List NAVRecord) :
    ∀ m, latestDate l = some m → m ∈ dates l := by
  induction l with
  | nil =>
    intro m hm
    exact absurd hm (by simp [latestDate])
  | cons a rs ih =>
    intro m hm
    simp only [dates, List.map_cons, List.mem_cons]
    cases hrs : latestDate rs with
    | none =>
      simp only [latestDate, hrs, Option.some.injEq] at hm
      exact Or.inl hm.symm
    | some k =>
      simp only [latestDate, hrs, Option.some.injEq] at hm
      rcases Nat.le_total a.date k with hle | hle
      · rw [Nat.max_eq_right hle] at hm
        exact Or.inr (hm ▸ ih k hrs)
      · rw [Nat.max_eq_left hle] at hm
        exact Or.inl hm.symm

/-- A merge whose fetched records are all no newer than the stored maximum
date leaves the stored series unchanged. -/
theorem mergeSeries_absorbed (M S : List NAVRecord) (m : Nat)
    (hm : latestDate M = some m)
    (hS : ∀ s ∈ S, ¬ m < s.date) :
    mergeSeries M S = M := by
  have hfil : S.filter (fun r => decide (m < r.date)) = [] :=
    List.filter_eq_nil_iff.mpr (fun s hs => by simpa using hS s hs)
  simp [mergeSeries, hm, hfil]

/-- Sorting preserves date-nodup. -/
theorem nodup_dates_sortByDate {l : List NAVRecord}
    (h : (dates l).Nodup) : (dates (sortByDate l)).Nodup := by
  simp only [dates] at h ⊢
  exact ((sortByDate_perm l).map (fun r => r.date)).nodup_iff.mpr h

/-- C1: the cache merge is idempotent — merging the same fetched series a
second time immediately after a first merge leaves the stored series
unchanged — and the merged series contains no duplicate dates. -/
theorem merge_idempotent (cached S : List NAVRecord)
    (h : (dates cached).Nodup) :
    mergeSeries (mergeSeries cached S) S = mergeSeries cached S ∧
    (dates (mergeSeries cached S)).Nodup := by
  cases hc : latestDate cached with
  | none =>
    have hM : mergeSeries cached S = sortByDate (dedupDate S) := by
      simp [mergeSeries, hc]
    constructor
    · cases hm : latestDate (mergeSeries cached S) with
      | none =>
        rw [hM] at hm ⊢
        simp [mergeSeries, hm, hM]
      | some m2 =>
        refine mergeSeries_absorbed _ S m2 hm ?_
        intro s hs
        have hmm : s.date ∈ dates (mergeSeries cached S) := by
          rw [hM]
          exact mem_dates_sortByDate.mpr
            ((mem_dates_dedupDate _ _).mpr (List.mem_map_of_mem _ hs))
        rcases List.mem_map.mp hmm with ⟨r, hr, hrd⟩
        have := latestDate_le _ m2 hm r hr
        omega
    · rw [hM]
      exact nodup_dates_sortByDate (nodup_dates_dedupDate S)
  | some m =>
    cases hne : (S.filter (fun r => decide (m < r.date))).isEmpty with
    | true =>
      have hM : mergeSeries cached S = cached := by
        simp only [mergeSeries, hc]
        rw [if_pos hne]
      rw [hM]
      refine ⟨hM, h⟩
    | false =>
      have hM : mergeSeries cached S =
          sortByDate (dedupDate (cached ++
            sortByDate (dedupDate (S.filter (fun r => decide (m < r.date)))))) := by
        simp only [mergeSeries, hc]
        rw [if_neg (by simp [hne])]
      have hnewne : S.filter (fun r => decide (m < r.date)) ≠ [] := by
        intro hnil
        rw [hnil] at hne
        simp at hne
      have hXne : sortByDate (dedupDate (S.filter (fun r => decide (m < r.date)))) ≠ [] := by
        intro hnil
        exact dedupDate_ne_nil hnewne (sortByDate_eq_nil_iff.mp hnil)
      have hMne : mergeSeries cached S ≠ [] := by
        rw [hM]
        intro hnil
        have happ := sortByDate_eq_nil_iff.mp hnil
        have : cached ++ sortByDate (dedupDate (S.filter (fun r => decide (m < r.date)))) = [] := by
          by_contra hcon
          exact dedupDate_ne_nil hcon happ
        exact hXne (List.append_eq_nil.mp this).2
      have hmem : ∀ d, d ∈ dates (cached ++
          sortByDate (dedupDate (S.filter (fun r => decide (m < r.date))))) →
          d ∈ dates (mergeSeries cached S) := by
        intro d hd
        rw [hM]
        exact mem_dates_sortByDate.mpr ((mem_dates_dedupDate _ _).mpr hd)
      constructor
      · cases hm2 : latestDate (mergeSeries cached S) with
        | none => exact absurd (latestDate_eq_none_iff.mp hm2) hMne
        | some m2 =>
          refine mergeSeries_absorbed _ S m2 hm2 ?_
          have hup : ∀ r ∈ mergeSeries cached S, r.date ≤ m2 :=
            latestDate_le _ m2 hm2
          have hdle : ∀ d, d ∈ dates (mergeSeries cached S) → d ≤ m2 := by
            intro d hd
            rcases List.mem_map.mp hd with ⟨r, hr, rfl⟩
            exact hup r hr
          intro s hs
          by_cases hlt : m < s.date
          · have hsnew : s ∈ S.filter (fun r => decide (m < r.date)) :=
              List.mem_filter.mpr ⟨hs, by simpa using hlt⟩
            have hsd : s.date ∈ dates (mergeSeries cached S) := by
              apply hmem
              simp only [dates, List.map_append, List.mem_append]
              right
              exact mem_dates_sortByDate.mpr
                ((mem_dates_dedupDate _ _).mpr (List.mem_map_of_mem _ hsnew))
            have := hdle s.date hsd
            omega
          · have hmc : m ∈ dates cached := latestDate_mem cached m hc
            have hmd : m ∈ dates (mergeSeries cached S) := by
              apply hmem
              simp only [dates, List.map_append, List.mem_append]
              left
              exact hmc
            have := hdle m hmd
            omega
      · rw [hM]
        exact nodup_dates_sortByDate (nodup_dates_dedupDate _)

/-- A one-record cache. -/
def cache1 : List NAVRecord := [⟨0, 1⟩]

/-- A fetched series with an internal duplicate date. -/
def fetched1 : List NAVRecord := [⟨1, 2⟩, ⟨1, 3⟩, ⟨2, 1⟩]

/-- Witness for C1: merging `fetched1` into `cache1` twice equals merging it
once, and the merged series has no duplicate dates. -/
theorem merge_idempotent_witness :
    mergeSeries (mergeSeries cache1 fetched1) fetched1 =
      mergeSeries cache1 fetched1 ∧
    (dates (mergeSeries cache1 fetched1)).Nodup :=
  merge_idempotent cache1 fetched1 (by decide)

end MarketMonitor
